import Mathlib

/-!
Verification development for the go-attestation demo attestation server
(attest/demo/server.go, attest/demo/rpc.go) and the EK certificate
verifier (verifier package: NewEKVerifier / readCertificates /
parseCertsToPool / VerifyEKCert).

The Go code is shallowly embedded: byte slices become `List Nat`, the
server's client list becomes `List clientInfo`, and each HTTP handler
becomes a pure function from the decoded request and the current state to
a response value and the next state (the handlers hold the server's single
mutex for their whole body, so one handler invocation is one atomic
transition of the state).  External collaborators (the Go standard
library's pem/x509 parsers, the TPM crypto in attest.ActivationParameters
.Generate, the certificate-transparency x509 chain builder, and the
filesystem) are passed in as explicit function parameters, mirroring the
narrow interfaces through which the core calls them.
-/

namespace GoAttestation

/-- Byte strings ([]byte) are modelled as lists of naturals. -/
abbrev Bytes := List Nat

instance {ε α : Type} [DecidableEq ε] [DecidableEq α] : DecidableEq (Except ε α) :=
  fun a b =>
    match a, b with
    | .error e, .error f =>
      if h : e = f then .isTrue (by rw [h]) else .isFalse (fun hh => h (Except.error.inj hh))
    | .ok x, .ok y =>
      if h : x = y then .isTrue (by rw [h]) else .isFalse (fun hh => h (Except.ok.inj hh))
    | .error _, .ok _ => .isFalse (fun hh => Except.noConfusion hh)
    | .ok _, .error _ => .isFalse (fun hh => Except.noConfusion hh)

/-- attest.AttestationParameters: the AIK description sent by the client
(public blob plus proof-of-origin blobs). -/
structure AttestationParameters where
  Public : Bytes
  UseTCSDActivationFormat : Bool
  CreateData : Bytes
  CreateAttestation : Bytes
  CreateSignature : Bytes
deriving DecidableEq

/-- rsa.PublicKey, abstracted to its numeric components. -/
structure RSAPublicKey where
  n : Nat
  e : Nat
deriving DecidableEq

/-- attest.EncryptedCredential (the activation challenge blob). -/
structure EncryptedCredential where
  Credential : Bytes
  Secret : Bytes
deriving DecidableEq

/-- verifier/proto QuoteVerificationResults: structured quote outcome. -/
structure QuoteVerificationResults where
  succeeded : Bool
  signatureMismatch : Bool
  pcrDigest : Bytes
  pcrDigestMismatch : Bool
  nonceMismatch : Bool
deriving DecidableEq

/-- clientInfo (server.go): per-AIK state kept by the server. -/
structure clientInfo where
  AIK : AttestationParameters
  EK : Option RSAPublicKey
  ActivationSecret : Bytes
  Activated : Bool
  Nonce : Bytes
  AttestResults : Option QuoteVerificationResults
deriving DecidableEq

/-- The zero-valued record appended by server.clientInfo on first contact:
`clientInfo{AIK: attest.AttestationParameters{Public: pub}}`. -/
def newClient (pub : Bytes) : clientInfo :=
  { AIK := { Public := pub, UseTCSDActivationFormat := false,
             CreateData := [], CreateAttestation := [], CreateSignature := [] },
    EK := none, ActivationSecret := [], Activated := false,
    Nonce := [], AttestResults := none }

/-- Read-only view of server.clientInfo's linear scan: the first record
whose AIK.Public equals pub byte-for-byte. -/
def lookupClient : List clientInfo → Bytes → Option clientInfo
  | [], _ => none
  | c :: rest, pub => if c.AIK.Public = pub then some c else lookupClient rest pub

/-- server.clientInfo followed by a mutation through the returned pointer:
find the first record with the given public blob (appending a zero-valued
record when none exists, as the Go method does) and apply `f` to it,
returning f's first component as the handler's result. -/
def withClient : List clientInfo → Bytes → (clientInfo → α × clientInfo) → α × List clientInfo
  | [], pub, f => ((f (newClient pub)).1, [(f (newClient pub)).2])
  | c :: rest, pub, f =>
    if c.AIK.Public = pub then ((f c).1, (f c).2 :: rest)
    else ((withClient rest pub f).1, c :: (withClient rest pub f).2)

/-- bytes.Equal, as used by the server for secret and blob comparison. -/
def bytesEqual (a b : Bytes) : Bool := a == b

/-- Number of byte comparisons performed by the short-circuiting content
scan underlying bytes.Equal: it stops at the first mismatching byte. -/
def eqCost : Bytes → Bytes → Nat
  | a :: as, b :: bs => if a = b then eqCost as bs + 1 else 1
  | _, _ => 0

/-- Cost model of bytes.Equal: a constant-time length check (0 byte
comparisons when the lengths differ), then a short-circuiting
byte-by-byte scan.  The count of byte comparisons is the observable
timing of the equality check. -/
def bytesEqualComparisons (a b : Bytes) : Nat :=
  if a.length = b.length then eqCost a b else 0

/-- Decoded requestData (rpc.go): only the fields a given handler reads
are meaningful for that handler. -/
structure QuoteMsg where
  Quote : Bytes
  Signature : Bytes
deriving DecidableEq

structure requestData where
  TPMVersion : Nat
  AIK : AttestationParameters
  EKPem : Bytes
  DecryptedCredential : Bytes
  Quote : QuoteMsg
  PCRs : List (Nat × Bytes)
deriving DecidableEq

/-- Result of the /do/activation handler: 200 with an empty responseData,
or http.Error with a status code and message. -/
inductive ActivateResult where
  | ok
  | httpError (code : Nat) (msg : String)
deriving DecidableEq

/-- The body of server.activate once the record is in hand (server.go
lines 122-136): reject when no challenge is outstanding or the claimed
credential differs, otherwise mark the record activated. -/
def activateStep (c : clientInfo) (creds : Bytes) : ActivateResult × clientInfo :=
  if c.ActivationSecret.length = 0 ∨ bytesEqual c.ActivationSecret creds = false then
    (.httpError 400 "Activation failed", c)
  else
    (.ok, { c with Activated := true })

/-- server.activate: look up (or create) the record for the request's AIK
public blob and run the activation check on it. -/
def activate (st : List clientInfo) (aik : AttestationParameters) (creds : Bytes) :
    ActivateResult × List clientInfo :=
  withClient st aik.Public (fun c => activateStep c creds)

/-- server.getNonce: store the freshly generated 32-byte random value
(passed in as `n`, the crypto/rand collaborator's output) as the record's
Nonce and return it. -/
def getNonce (st : List clientInfo) (aik : AttestationParameters) (n : Bytes) :
    Bytes × List clientInfo :=
  withClient st aik.Public (fun c => (n, { c with Nonce := n }))

/-- pem.Block (encoding/pem): only the payload matters here. -/
structure PemBlock where
  type : String
  bytes : Bytes
deriving DecidableEq

def leadsWith : Bytes → Bytes → Bool
  | [], _ => true
  | _ :: _, [] => false
  | a :: as, b :: bs => (a == b) && leadsWith as bs

def containsSeq (needle : Bytes) : Bytes → Bool
  | [] => needle.isEmpty
  | b :: bs => leadsWith needle (b :: bs) || containsSeq needle bs

/-- The bytes of the PEM begin marker "-----BEGIN ". -/
def pemMarker : Bytes := [45, 45, 45, 45, 45, 66, 69, 71, 73, 78, 32]

/-- Collaborator model of encoding/pem.Decode: returns none exactly when
the input contains no PEM begin marker (in particular on empty input);
the block payload on success is abstracted as the raw input, since the
claims below depend only on whether a block was found. -/
def pemDecode (d : Bytes) : Option PemBlock :=
  if containsSeq pemMarker d then some { type := "RSA PUBLIC KEY", bytes := d } else none

/-- Result of the /get/activation-challenge handler.  `panicked` models
the Go runtime nil-pointer panic raised when rpc.go's EKPublic evaluates
`b.Bytes` after pem.Decode returned a nil block. -/
inductive ChallengeResult where
  | ok (ec : EncryptedCredential)
  | httpError (code : Nat) (msg : String)
  | panicked
deriving DecidableEq

/-- The record mutation of activationGetChallenge (server.go lines
97-101): c.AIK = rd.AIK; c.ActivationSecret = secret; c.EK = ek;
c.Activated = false. -/
def challengeStep (c : clientInfo) (rd : requestData) (secret : Bytes)
    (ek : RSAPublicKey) : clientInfo :=
  { c with AIK := rd.AIK, ActivationSecret := secret, EK := some ek, Activated := false }

/-- server.activationGetChallenge.  `pemDec` and `parseKey` are the two
halves of rpc.go's EKPublic (encoding/pem.Decode and
x509.ParsePKCS1PublicKey); `gen` is attest.ActivationParameters.Generate.
Note EKPublic dereferences the pem.Decode result without a nil check, so
a request whose EKPem holds no PEM block panics. -/
def activationGetChallenge (pemDec : Bytes → Option PemBlock)
    (parseKey : Bytes → Except String RSAPublicKey)
    (gen : Nat → RSAPublicKey → AttestationParameters →
      Except String (Bytes × EncryptedCredential))
    (st : List clientInfo) (rd : requestData) : ChallengeResult × List clientInfo :=
  match pemDec rd.EKPem with
  | none => (.panicked, st)
  | some b =>
    match parseKey b.bytes with
    | .error _ => (.httpError 500 "Internal server error", st)
    | .ok ek =>
      match gen rd.TPMVersion ek rd.AIK with
      | .error _ => (.httpError 500 "Internal server error", st)
      | .ok (secret, ec) =>
        (.ok ec, (withClient st rd.AIK.Public (fun c => ((), challengeStep c rd secret ek))).2)

/-- Collaborators of the quote verifier (crypto and quote wire format):
signature validity, the challenge value and PCR digest embedded in the
quote bytes, and the digest function. -/
structure QuoteCollab where
  sigValid : Bytes → Bytes → Bytes → Bool
  quoteNonce : Bytes → Bytes
  quoteDigest : Bytes → Bytes
  hash : Bytes → Bytes

def insertByIdx (p : Nat × Bytes) : List (Nat × Bytes) → List (Nat × Bytes)
  | [] => [p]
  | q :: rest => if p.1 ≤ q.1 then p :: q :: rest else q :: insertByIdx p rest

def sortByIdx : List (Nat × Bytes) → List (Nat × Bytes)
  | [] => []
  | p :: rest => insertByIdx p (sortByIdx rest)

/-- Canonical index-ordered concatenation of the reference PCR values. -/
def pcrConcat (pcrs : List (Nat × Bytes)) : Bytes :=
  (sortByIdx pcrs).foldr (fun p acc => p.2 ++ acc) []

/-- Modelled from the spec: verifier.VerifyQuote (the verifier package's
quote check, absent from src/), following section 4.5: the signature must
verify over the quote bytes under the identity key, the quote's embedded
challenge value must equal the nonce passed in, and the quote's embedded
digest must equal the digest recomputed over the index-ordered reference
register values; the outcome carries independent booleans. -/
def VerifyQuote (K : QuoteCollab) (aikPub quote sig : Bytes)
    (pcrs : List (Nat × Bytes)) (nonce : Bytes) : QuoteVerificationResults :=
  let sigMismatch := !K.sigValid aikPub quote sig
  let nonceMismatch := !(K.quoteNonce quote == nonce)
  let digest := K.hash (pcrConcat pcrs)
  let digestMismatch := !(K.quoteDigest quote == digest)
  { succeeded := !sigMismatch && !nonceMismatch && !digestMismatch,
    signatureMismatch := sigMismatch,
    pcrDigest := digest,
    pcrDigestMismatch := digestMismatch,
    nonceMismatch := nonceMismatch }

/-- The record mutation of server.attest (line 186): the outcome is
stored in AttestResults; Nonce is left untouched. -/
def attestStep (K : QuoteCollab) (rd : requestData) (c : clientInfo) : clientInfo :=
  let q := VerifyQuote K rd.AIK.Public rd.Quote.Quote rd.Quote.Signature rd.PCRs c.Nonce
  { c with AttestResults := some q }

/-- server.attest: judge the submitted quote against the record's stored
Nonce and record the outcome.  (The Go handler answers 200 with an empty
body; the interesting observable is the state.) -/
def attest (K : QuoteCollab) (st : List clientInfo) (rd : requestData) :
    List clientInfo :=
  (withClient st rd.AIK.Public (fun c => ((), attestStep K rd c))).2

/-! ### Concrete inputs used by witnesses and counterexamples -/

def aikW : AttestationParameters :=
  { Public := [3], UseTCSDActivationFormat := false, CreateData := [],
    CreateAttestation := [], CreateSignature := [] }

def cW : clientInfo := { newClient [3] with ActivationSecret := [5] }

def stW : List clientInfo := [cW]

def aikC4 : AttestationParameters :=
  { Public := [2], UseTCSDActivationFormat := false, CreateData := [],
    CreateAttestation := [], CreateSignature := [] }

def stC4a : List clientInfo := [newClient [2]]

def stC4b : List clientInfo := [{ newClient [2] with ActivationSecret := [9] }]

def ecW : EncryptedCredential := { Credential := [4], Secret := [5] }

/-- Concrete x509.ParsePKCS1PublicKey collaborator used by witnesses. -/
def parseKeyModel (d : Bytes) : Except String RSAPublicKey :=
  if d.length = 0 then .error "asn1: empty body" else .ok { n := d.length, e := 65537 }

/-- Concrete ActivationParameters.Generate collaborator used by witnesses. -/
def genModel (_v : Nat) (_ek : RSAPublicKey) (_aik : AttestationParameters) :
    Except String (Bytes × EncryptedCredential) := .ok ([1, 2, 3], ecW)

def rdGood : requestData :=
  { TPMVersion := 2, AIK := aikW, EKPem := pemMarker, DecryptedCredential := [],
    Quote := { Quote := [], Signature := [] }, PCRs := [] }

def rdBadPem : requestData :=
  { TPMVersion := 2, AIK := aikW, EKPem := [], DecryptedCredential := [],
    Quote := { Quote := [], Signature := [] }, PCRs := [] }

def n0 : Bytes := List.replicate 32 7

def K0 : QuoteCollab :=
  { sigValid := fun _ _ _ => true, quoteNonce := fun q => q,
    quoteDigest := fun _ => [5], hash := fun _ => [5] }

def rd0 : requestData :=
  { TPMVersion := 2, AIK := aikW, EKPem := [], DecryptedCredential := [],
    Quote := { Quote := n0, Signature := [] }, PCRs := [(0, [5])] }

/-- The record after a nonce request: newClient [3] holding nonce n0. -/
def cN : clientInfo := { newClient [3] with Nonce := n0 }

def stC1 : List clientInfo := (getNonce [] aikW n0).2

def stC1a : List clientInfo := attest K0 stC1 rd0

def stC1b : List clientInfo := attest K0 stC1a rd0

/-! ### EK certificate verifier (verifier package) -/

/-- The fields of a certificate-transparency-go x509.Certificate that the
verifier reads. -/
structure CTCert where
  issuerCN : String
  issuerOrg : List String
  serialNumber : Int
  unhandledCriticalExtensions : List String
deriving DecidableEq

/-- proto EkcertVerificationResults.CertSummary. -/
structure CertSummary where
  issuerCn : String
  issuerOrg : String
  serial : String
deriving DecidableEq

/-- proto EkcertVerificationResults. -/
structure EkcertVerificationResults where
  succeeded : Bool
  chainVerified : Bool
  chain : List CertSummary
  verificationError : String
deriving DecidableEq

/-- The per-certificate summary built in VerifyEKCert's success loop:
issuer common name, issuer organizations joined with a space, and the
decimal serial number. -/
def certSummary (c : CTCert) : CertSummary :=
  { issuerCn := c.issuerCN,
    issuerOrg := String.intercalate " " c.issuerOrg,
    serial := toString c.serialNumber }

/-- Outcome of VerifyEKCert.  `panicked` covers the two nil/empty
dereferences in the Go code: `c.UnhandledCriticalExtensions = nil` when
ParseCertificate returned a nil certificate (the assignment precedes the
error check), and `chains[0]` when Verify returned no chains. -/
inductive VerifyEKOutcome where
  | panicked
  | err (e : String)
  | ok (r : EkcertVerificationResults)
deriving DecidableEq

/-- verifier.VerifyEKCert.  `parse` models ct-go x509.ParseCertificate as
the returned certificate (if any) plus the returned error with its
x509.IsFatal status; `verify` models x509.Certificate.Verify against the
EKVerifier's root and intermediate pools (with ExtKeyUsageAny), returning
the candidate chains or the chain-building error. -/
def VerifyEKCert (parse : Bytes → Option CTCert × Option (String × Bool))
    (verify : CTCert → Except String (List (List CTCert)))
    (certBytes : Bytes) : VerifyEKOutcome :=
  match parse certBytes with
  | (none, _) => .panicked
  | (some c0, perr) =>
    let c := { c0 with unhandledCriticalExtensions := [] }
    match perr with
    | some (m, true) => .err m
    | _ =>
      match verify c with
      | .error ve =>
        .ok { succeeded := false, chainVerified := false, chain := [],
              verificationError := ve }
      | .ok [] => .panicked
      | .ok (ch :: _) =>
        .ok { succeeded := true, chainVerified := true, chain := ch.map certSummary,
              verificationError := "" }

/-- One entry of an ioutil.ReadDir listing. -/
structure FileEntry where
  name : String
  isDir : Bool
deriving DecidableEq

/-- Outcome of ioutil.ReadDir: a listing, an os.IsNotExist error, or any
other error. -/
inductive ReadDirResult where
  | ok (files : List FileEntry)
  | notExist
  | err (e : String)
deriving DecidableEq

/-- Outcome of ct-go x509.ParseCertificate on a file's bytes: clean
success, success with a non-fatal error, or a fatal error. -/
inductive CTParse where
  | ok (c : CTCert)
  | nonFatal (c : CTCert) (e : String)
  | fatal (e : String)
deriving DecidableEq

/-- Filesystem and parser collaborators of trust-store construction.
`pemCerts d` is the list of certificates AppendCertsFromPEM can extract
from d (it reports success exactly when that list is non-empty). -/
structure CertFS where
  readDir : String → ReadDirResult
  readFile : String → Except String Bytes
  parseCert : Bytes → CTParse
  pemCerts : Bytes → List CTCert

def pathJoin (a b : String) : String := a ++ "/" ++ b

def extAux : List Char → Option (List Char)
  | [] => none
  | c :: rest =>
    match extAux rest with
    | some e => some e
    | none => if c = '.' then some (c :: rest) else none

/-- filepath.Ext: the suffix of the name starting at its final dot,
empty when the name contains no dot. -/
def fileExt (name : String) : String :=
  match extAux name.toList with
  | some e => String.mk e
  | none => ""

/-- The ".der" arm of parseCertsToPool's switch: read the file, fail on a
fatal parse error, otherwise add the certificate to the pool. -/
def addDer (fs : CertFS) (path name : String) (pool : List CTCert) :
    Except String (List CTCert) :=
  match fs.readFile (pathJoin path name) with
  | .error e => .error e
  | .ok d =>
    match fs.parseCert d with
    | .fatal e => .error (name ++ " parse failed: " ++ e)
    | .ok c => .ok (pool ++ [c])
    | .nonFatal c _ => .ok (pool ++ [c])

/-- The ".crt"/".cer" arm: either DER or PEM.  On a fatal DER parse error
the bytes are retried as PEM (AppendCertsFromPEM), failing only when that
also adds nothing; a certificate parsed with a non-fatal error is neither
added nor an error (the `err == nil` guard before AddCert). -/
def addCrt (fs : CertFS) (path name : String) (pool : List CTCert) :
    Except String (List CTCert) :=
  match fs.readFile (pathJoin path name) with
  | .error e => .error e
  | .ok d =>
    match fs.parseCert d with
    | .ok c => .ok (pool ++ [c])
    | .nonFatal _ _ => .ok pool
    | .fatal e =>
      if fs.pemCerts d = [] then .error (name ++ " parse failed: " ++ e)
      else .ok (pool ++ fs.pemCerts d)

/-- verifier.parseCertsToPool: walk a directory listing, skipping
subdirectories and any file whose extension is not .der, .crt or .cer. -/
def parseCertsToPool (fs : CertFS) (path : String) :
    List FileEntry → List CTCert → Except String (List CTCert)
  | [], pool => .ok pool
  | f :: rest, pool =>
    if f.isDir then parseCertsToPool fs path rest pool
    else if fileExt f.name = ".der" then
      match addDer fs path f.name pool with
      | .error e => .error e
      | .ok pool2 => parseCertsToPool fs path rest pool2
    else if fileExt f.name = ".crt" ∨ fileExt f.name = ".cer" then
      match addCrt fs path f.name pool with
      | .error e => .error e
      | .ok pool2 => parseCertsToPool fs path rest pool2
    else parseCertsToPool fs path rest pool

/-- The tail of verifier.readCertificates (lines 98-106): read the
IntermediateCA directory, tolerating only os.IsNotExist. -/
def readIntermediates (fs : CertFS) (dir : String) (roots2 ints : List CTCert) :
    Except String (List CTCert × List CTCert) :=
  match fs.readDir (pathJoin dir "IntermediateCA") with
  | .notExist => .ok (roots2, ints)
  | .err e => .error e
  | .ok files =>
    match parseCertsToPool fs (pathJoin dir "IntermediateCA") files ints with
    | .error e => .error e
    | .ok ints2 => .ok (roots2, ints2)

/-- verifier.readCertificates (lines 88-107): read RootCA (an error is
returned only when it is not os.IsNotExist), then IntermediateCA. -/
def readCertificates (fs : CertFS) (dir : String) (roots ints : List CTCert) :
    Except String (List CTCert × List CTCert) :=
  match fs.readDir (pathJoin dir "RootCA") with
  | .err e => .error e
  | .notExist => readIntermediates fs dir roots ints
  | .ok rootFiles =>
    match parseCertsToPool fs (pathJoin dir "RootCA") rootFiles roots with
    | .error e => .error e
    | .ok roots2 => readIntermediates fs dir roots2 ints

/-- verifier.EKVerifier: the constructed trust store. -/
structure EKVerifier where
  roots : List CTCert
  intermediates : List CTCert
deriving DecidableEq

/-- The inner loop of NewEKVerifier over one top-level directory's
entries: descend into each subdirectory. -/
def scanManufacturers (fs : CertFS) (dir : String) :
    List FileEntry → List CTCert × List CTCert → Except String (List CTCert × List CTCert)
  | [], pools => .ok pools
  | f :: rest, pools =>
    if f.isDir then
      match readCertificates fs (pathJoin dir f.name) pools.1 pools.2 with
      | .error e => .error e
      | .ok pools2 => scanManufacturers fs dir rest pools2
    else scanManufacturers fs dir rest pools

/-- The outer loop of NewEKVerifier over the configured directories: a
top-level directory that cannot be listed (including not existing) is a
construction error. -/
def scanCertDirs (fs : CertFS) :
    List String → List CTCert × List CTCert → Except String (List CTCert × List CTCert)
  | [], pools => .ok pools
  | dir :: rest, pools =>
    match fs.readDir dir with
    | .notExist => .error (dir ++ ": no such file or directory")
    | .err e => .error e
    | .ok entries =>
      match scanManufacturers fs dir entries pools with
      | .error e => .error e
      | .ok pools2 => scanCertDirs fs rest pools2

/-- verifier.NewEKVerifier: build the two pools from the directory
hierarchy. -/
def NewEKVerifier (fs : CertFS) (certsPath : List String) : Except String EKVerifier :=
  match scanCertDirs fs certsPath ([], []) with
  | .error e => .error e
  | .ok pools => .ok { roots := pools.1, intermediates := pools.2 }

/-- A manufacturer hierarchy containing one manufacturer directory `acme`
with neither a RootCA nor an IntermediateCA subdirectory. -/
def fsNoRoot : CertFS :=
  { readDir := fun p =>
      if p = "certs" then .ok [{ name := "acme", isDir := true }] else .notExist,
    readFile := fun _ => .error "unused",
    parseCert := fun _ => .fatal "unused",
    pemCerts := fun _ => [] }

/-- Concrete ct-go ParseCertificate collaborator used by the C8 witness. -/
def cert0 : CTCert :=
  { issuerCN := "Example TPM CA", issuerOrg := ["Example Corp"],
    serialNumber := 42, unhandledCriticalExtensions := ["2.5.29.99"] }

def parseCertModel (_d : Bytes) : Option CTCert × Option (String × Bool) :=
  (some cert0, none)

/-- Concrete chain-building collaborator with no path to any root. -/
def verifyFailModel (_c : CTCert) : Except String (List (List CTCert)) :=
  .error "x509: certificate signed by unknown authority"

/-! ### Registry lemmas -/

theorem lookupClient_public : ∀ (st : List clientInfo) (pub : Bytes) (c : clientInfo),
    lookupClient st pub = some c → c.AIK.Public = pub := by
  intro st pub
  induction st with
  | nil => intro c h; simp [lookupClient] at h
  | cons x rest ih =>
    intro c h
    by_cases hx : x.AIK.Public = pub
    · simp [lookupClient, hx] at h
      subst h; exact hx
    · simp [lookupClient, hx] at h
      exact ih c h

theorem withClient_fst {α : Type} (pub : Bytes) (f : clientInfo → α × clientInfo) :
    ∀ (st : List clientInfo) (c : clientInfo), lookupClient st pub = some c →
    (withClient st pub f).1 = (f c).1 := by
  intro st
  induction st with
  | nil => intro c h; simp [lookupClient] at h
  | cons x rest ih =>
    intro c h
    by_cases hx : x.AIK.Public = pub
    · simp [lookupClient, hx] at h
      subst h; simp [withClient, hx]
    · simp [lookupClient, hx] at h
      simp [withClient, hx]
      exact ih c h

theorem withClient_lookup {α : Type} (pub : Bytes) (f : clientInfo → α × clientInfo) :
    ∀ (st : List clientInfo) (c : clientInfo), lookupClient st pub = some c →
    (f c).2.AIK.Public = pub →
    lookupClient (withClient st pub f).2 pub = some (f c).2 := by
  intro st
  induction st with
  | nil => intro c h; simp [lookupClient] at h
  | cons x rest ih =>
    intro c h hf
    by_cases hx : x.AIK.Public = pub
    · simp [lookupClient, hx] at h
      subst h
      simp [withClient, hx, lookupClient, hf]
    · simp [lookupClient, hx] at h
      simp [withClient, hx, lookupClient]
      exact ih c h hf

theorem withClient_frame {α : Type} (pub : Bytes) (f : clientInfo → α × clientInfo) :
    ∀ (st : List clientInfo) (c : clientInfo), lookupClient st pub = some c →
    (f c).2 = c → (withClient st pub f).2 = st := by
  intro st
  induction st with
  | nil => intro c h; simp [lookupClient] at h
  | cons x rest ih =>
    intro c h hf
    by_cases hx : x.AIK.Public = pub
    · simp [lookupClient, hx] at h
      subst h
      simp [withClient, hx, hf]
    · simp [lookupClient, hx] at h
      simp [withClient, hx]
      exact ih c h hf

theorem withClient_fst_new {α : Type} (pub : Bytes) (f : clientInfo → α × clientInfo) :
    ∀ st : List clientInfo, lookupClient st pub = none →
    (withClient st pub f).1 = (f (newClient pub)).1 := by
  intro st
  induction st with
  | nil => intro _; simp [withClient]
  | cons x rest ih =>
    intro h
    by_cases hx : x.AIK.Public = pub
    · simp [lookupClient, hx] at h
    · simp [lookupClient, hx] at h
      simp [withClient, hx]
      exact ih h

theorem withClient_lookup_new {α : Type} (pub : Bytes) (f : clientInfo → α × clientInfo) :
    ∀ st : List clientInfo, lookupClient st pub = none →
    (f (newClient pub)).2.AIK.Public = pub →
    lookupClient (withClient st pub f).2 pub = some (f (newClient pub)).2 := by
  intro st
  induction st with
  | nil => intro _ hf; simp [withClient, lookupClient, hf]
  | cons x rest ih =>
    intro h hf
    by_cases hx : x.AIK.Public = pub
    · simp [lookupClient, hx] at h
    · simp [lookupClient, hx] at h
      simp [withClient, hx, lookupClient]
      exact ih h hf

theorem activateStep_ok (c : clientInfo) (s : Bytes) (hs : c.ActivationSecret = s)
    (hne : s ≠ []) : activateStep c s = (.ok, { c with Activated := true }) := by
  have h1 : ¬ c.ActivationSecret.length = 0 := by
    rw [hs]; simpa [List.length_eq_zero] using hne
  have h2 : bytesEqual c.ActivationSecret s = true := by simp [bytesEqual, hs]
  simp [activateStep, h1, h2]

theorem activateStep_fail (c : clientInfo) (creds : Bytes)
    (h : c.ActivationSecret = [] ∨ c.ActivationSecret ≠ creds) :
    activateStep c creds = (.httpError 400 "Activation failed", c) := by
  rcases h with h | h
  · simp [activateStep, h]
  · have hb : bytesEqual c.ActivationSecret creds = false := by
      simpa [bytesEqual] using beq_eq_false_iff_ne.mpr h
    simp [activateStep, hb]

/-- Claim C5: when the claimed secret differs from the stored non-empty
pending secret, activate reports the activation failure, leaves the whole
state (hence the activated flag and the pending secret) unchanged, and a
later request with the exact correct secret still succeeds. -/
theorem activate_wrong_secret_frame (st : List clientInfo) (aik : AttestationParameters)
    (creds : Bytes) (c : clientInfo)
    (hc : lookupClient st aik.Public = some c)
    (hne : c.ActivationSecret ≠ [])
    (hw : creds ≠ c.ActivationSecret) :
    (activate st aik creds).1 = .httpError 400 "Activation failed" ∧
    (activate st aik creds).2 = st ∧
    (activate st aik c.ActivationSecret).1 = .ok ∧
    lookupClient (activate st aik c.ActivationSecret).2 aik.Public
      = some { c with Activated := true } := by
  have hpub : c.AIK.Public = aik.Public := lookupClient_public st aik.Public c hc
  have hstep := activateStep_fail c creds (Or.inr (Ne.symm hw))
  have hok := activateStep_ok c c.ActivationSecret rfl hne
  refine ⟨?_, ?_, ?_, ?_⟩
  · rw [activate, withClient_fst aik.Public _ st c hc, hstep]
  · exact withClient_frame _ _ st c hc (by rw [hstep])
  · rw [activate, withClient_fst aik.Public _ st c hc, hok]
  · have h2 : (activateStep c c.ActivationSecret).2.AIK.Public = aik.Public := by
      rw [hok]; exact hpub
    rw [activate, withClient_lookup aik.Public _ st c hc h2, hok]

/-- Witness for Claim C5 at a concrete one-record state. -/
theorem activate_wrong_secret_frame_witness :
    (activate stW aikW [6]).1 = .httpError 400 "Activation failed" ∧
    (activate stW aikW [6]).2 = stW ∧
    (activate stW aikW cW.ActivationSecret).1 = .ok ∧
    lookupClient (activate stW aikW cW.ActivationSecret).2 aikW.Public
      = some { cW with Activated := true } :=
  activate_wrong_secret_frame stW aikW [6] cW (by decide) (by decide) (by decide)

/-- Claim C9: submitting the correct secret activates the record, and
re-submitting the same correct secret afterwards still reports success
and leaves the record activated (idempotent). -/
theorem activate_idempotent (st : List clientInfo) (aik : AttestationParameters)
    (c : clientInfo)
    (hc : lookupClient st aik.Public = some c)
    (hne : c.ActivationSecret ≠ []) :
    (activate st aik c.ActivationSecret).1 = .ok ∧
    lookupClient (activate st aik c.ActivationSecret).2 aik.Public
      = some { c with Activated := true } ∧
    (activate (activate st aik c.ActivationSecret).2 aik c.ActivationSecret).1 = .ok ∧
    lookupClient (activate (activate st aik c.ActivationSecret).2 aik c.ActivationSecret).2
        aik.Public = some { c with Activated := true } := by
  have hpub : c.AIK.Public = aik.Public := lookupClient_public st aik.Public c hc
  have hok := activateStep_ok c c.ActivationSecret rfl hne
  have h2 : (activateStep c c.ActivationSecret).2.AIK.Public = aik.Public := by
    rw [hok]; exact hpub
  have hl1 : lookupClient (activate st aik c.ActivationSecret).2 aik.Public
      = some { c with Activated := true } := by
    rw [activate, withClient_lookup aik.Public _ st c hc h2, hok]
  have hok2 := activateStep_ok { c with Activated := true } c.ActivationSecret rfl hne
  have h2b : (activateStep { c with Activated := true } c.ActivationSecret).2.AIK.Public
      = aik.Public := by rw [hok2]; exact hpub
  refine ⟨?_, hl1, ?_, ?_⟩
  · rw [activate, withClient_fst aik.Public _ st c hc, hok]
  · rw [activate, withClient_fst aik.Public _ _ _ hl1, hok2]
  · rw [activate, withClient_lookup aik.Public _ _ _ hl1 h2b, hok2]

/-- Witness for Claim C9 at a concrete one-record state. -/
theorem activate_idempotent_witness :
    (activate stW aikW cW.ActivationSecret).1 = .ok ∧
    lookupClient (activate stW aikW cW.ActivationSecret).2 aikW.Public
      = some { cW with Activated := true } ∧
    (activate (activate stW aikW cW.ActivationSecret).2 aikW cW.ActivationSecret).1 = .ok ∧
    lookupClient
        (activate (activate stW aikW cW.ActivationSecret).2 aikW cW.ActivationSecret).2
        aikW.Public = some { cW with Activated := true } :=
  activate_idempotent stW aikW cW (by decide) (by decide)

/-- Claim C4 (amended): when no challenge is outstanding for the
presented blob (record absent, or present with an empty pending secret),
activate fails with the generic HTTP 400 "Activation failed" response
(the server reports no distinct no-challenge error), and the record's
activated flag is unchanged (still false for a freshly created record). -/
theorem activate_no_challenge (st : List clientInfo) (aik : AttestationParameters)
    (creds : Bytes)
    (h : (lookupClient st aik.Public).map (fun c => c.ActivationSecret) = some [] ∨
         lookupClient st aik.Public = none) :
    (activate st aik creds).1 = .httpError 400 "Activation failed" ∧
    (lookupClient (activate st aik creds).2 aik.Public).map (fun c => c.Activated) =
      some (((lookupClient st aik.Public).map (fun c => c.Activated)).getD false) := by
  rcases h with h | h
  · cases hc : lookupClient st aik.Public with
    | none => rw [hc] at h; simp at h
    | some c =>
      rw [hc] at h
      have hsec : c.ActivationSecret = [] := by simpa using h
      have hstep := activateStep_fail c creds (Or.inl hsec)
      constructor
      · rw [activate, withClient_fst aik.Public _ st c hc, hstep]
      · have hfr : (activate st aik creds).2 = st :=
          withClient_frame _ _ st c hc (by rw [hstep])
        rw [hfr, hc]
        rfl
  · have hstep := activateStep_fail (newClient aik.Public) creds (Or.inl rfl)
    constructor
    · rw [activate, withClient_fst_new aik.Public _ st h, hstep]
    · have h2 : (activateStep (newClient aik.Public) creds).2.AIK.Public = aik.Public := by
        rw [hstep]
        rfl
      rw [activate,
        withClient_lookup_new aik.Public (fun x => activateStep x creds) st h h2, hstep, h]
      rfl

/-- Claim C4 counterexample: with an empty pending secret the server's
response is the generic HTTP 400 "Activation failed" — byte-identical to
the response for a wrong secret — so the operation does not fail with a
distinct NoChallengeIssued error as the claim states. -/
theorem activate_no_challenge_cex :
    (activate stC4a aikC4 [9]).1 = .httpError 400 "Activation failed" ∧
    (activate stC4a aikC4 [9]).1 = (activate stC4b aikC4 [7]).1 := by decide

/-- Witness for Claim C4's amended theorem at a concrete state. -/
theorem activate_no_challenge_witness :
    (activate stC4a aikC4 [9]).1 = .httpError 400 "Activation failed" ∧
    (lookupClient (activate stC4a aikC4 [9]).2 aikC4.Public).map (fun c => c.Activated) =
      some (((lookupClient stC4a aikC4.Public).map (fun c => c.Activated)).getD false) :=
  activate_no_challenge stC4a aikC4 [9] (by decide)

/-- Claim C3 (code bug): the secret comparison at server.go line 126 is
the short-circuiting bytes.Equal, not a constant-time comparison: against
the stored secret [1,1], the incorrect same-length claimed secrets [0,1]
and [1,0] are rejected after a different number of byte comparisons
(1 versus 2), so the observable timing leaks the position of the first
mismatching byte. -/
theorem activation_compare_not_constant_time :
    bytesEqual [1, 1] [0, 1] = false ∧ bytesEqual [1, 1] [1, 0] = false ∧
    ([0, 1] : Bytes).length = ([1, 0] : Bytes).length ∧
    bytesEqualComparisons [1, 1] [0, 1] = 1 ∧ bytesEqualComparisons [1, 1] [1, 0] = 2 := by
  decide

/-- Claim C6: a successful challenge request updates the record for the
presented AIK public blob in a single transition (the handler holds the
server lock for its whole body): the supplied endorsement key is stored,
the freshly generated secret becomes the pending activation secret
(overwriting any previous pending secret for that blob), and activated
is reset to false. -/
theorem challenge_updates_record (pemDec : Bytes → Option PemBlock)
    (parseKey : Bytes → Except String RSAPublicKey)
    (gen : Nat → RSAPublicKey → AttestationParameters →
      Except String (Bytes × EncryptedCredential))
    (st : List clientInfo) (rd : requestData) (b : PemBlock) (ek : RSAPublicKey)
    (secret : Bytes) (ec : EncryptedCredential)
    (hpem : pemDec rd.EKPem = some b)
    (hkey : parseKey b.bytes = .ok ek)
    (hgen : gen rd.TPMVersion ek rd.AIK = .ok (secret, ec)) :
    (activationGetChallenge pemDec parseKey gen st rd).1 = .ok ec ∧
    ((∃ old, lookupClient st rd.AIK.Public = some old ∧
        lookupClient (activationGetChallenge pemDec parseKey gen st rd).2 rd.AIK.Public =
          some { old with
                  AIK := rd.AIK, ActivationSecret := secret,
                  EK := some ek, Activated := false }) ∨
      (lookupClient st rd.AIK.Public = none ∧
        lookupClient (activationGetChallenge pemDec parseKey gen st rd).2 rd.AIK.Public =
          some { newClient rd.AIK.Public with
                  AIK := rd.AIK, ActivationSecret := secret,
                  EK := some ek, Activated := false })) := by
  have hunfold : activationGetChallenge pemDec parseKey gen st rd =
      (.ok ec, (withClient st rd.AIK.Public (fun c => ((), challengeStep c rd secret ek))).2) := by
    simp [activationGetChallenge, hpem, hkey, hgen]
  constructor
  · rw [hunfold]
  · cases hc : lookupClient st rd.AIK.Public with
    | some old =>
      left
      refine ⟨old, rfl, ?_⟩
      rw [hunfold]
      exact withClient_lookup _ _ st old hc rfl
    | none =>
      right
      refine ⟨rfl, ?_⟩
      rw [hunfold]
      exact withClient_lookup_new _ _ st hc rfl

/-- Witness for Claim C6 at concrete collaborators and state. -/
theorem challenge_updates_record_witness :
    (activationGetChallenge pemDecode parseKeyModel genModel stW rdGood).1 = .ok ecW ∧
    ((∃ old, lookupClient stW rdGood.AIK.Public = some old ∧
        lookupClient (activationGetChallenge pemDecode parseKeyModel genModel stW rdGood).2
            rdGood.AIK.Public =
          some { old with
                  AIK := rdGood.AIK, ActivationSecret := [1, 2, 3],
                  EK := some { n := 11, e := 65537 }, Activated := false }) ∨
      (lookupClient stW rdGood.AIK.Public = none ∧
        lookupClient (activationGetChallenge pemDecode parseKeyModel genModel stW rdGood).2
            rdGood.AIK.Public =
          some { newClient rdGood.AIK.Public with
                  AIK := rdGood.AIK,
                  ActivationSecret := [1, 2, 3],
                  EK := some { n := 11, e := 65537 }, Activated := false })) :=
  challenge_updates_record pemDecode parseKeyModel genModel stW rdGood
    { type := "RSA PUBLIC KEY", bytes := pemMarker } { n := 11, e := 65537 } [1, 2, 3] ecW
    (by decide) rfl rfl

/-- Claim C7 (code bug): for a challenge request whose endorsement-key
field contains no decodable PEM block, pem.Decode returns a nil block and
EKPublic (rpc.go line 31) dereferences it unchecked, so the handler
panics instead of returning an error; no record is created or mutated.
Stated for every parse/generate collaborator and every starting state, at
the failing input EKPem = []. -/
theorem challenge_no_pem_block_panics
    (parseKey : Bytes → Except String RSAPublicKey)
    (gen : Nat → RSAPublicKey → AttestationParameters →
      Except String (Bytes × EncryptedCredential))
    (st : List clientInfo) :
    activationGetChallenge pemDecode parseKey gen st rdBadPem = (.panicked, st) := by
  have h : pemDecode rdBadPem.EKPem = none := by decide
  simp [activationGetChallenge, h]

/-- Claim C1 (amended): judging a quote does not consume lastNonce: the
attest handler stores the outcome but leaves the record's Nonce
untouched, so a second identical quote request without an intervening
nonce request is judged against the same nonce and stores the same
outcome again. -/
theorem attest_nonce_reused (K : QuoteCollab) (st : List clientInfo) (rd : requestData)
    (c : clientInfo) (h : lookupClient st rd.AIK.Public = some c) :
    lookupClient (attest K st rd) rd.AIK.Public = some (attestStep K rd c) ∧
    (attestStep K rd c).Nonce = c.Nonce ∧
    lookupClient (attest K (attest K st rd) rd) rd.AIK.Public = some (attestStep K rd c) := by
  have hpub : c.AIK.Public = rd.AIK.Public := lookupClient_public _ _ _ h
  have h1 : lookupClient (attest K st rd) rd.AIK.Public = some (attestStep K rd c) :=
    withClient_lookup _ _ st c h hpub
  have h2 : lookupClient (attest K (attest K st rd) rd) rd.AIK.Public =
      some (attestStep K rd (attestStep K rd c)) :=
    withClient_lookup _ _ _ _ h1 hpub
  exact ⟨h1, rfl, h2⟩

/-- Witness for Claim C1's amended theorem at a concrete state. -/
theorem attest_nonce_reused_witness :
    lookupClient (attest K0 stC1 rd0) rd0.AIK.Public = some (attestStep K0 rd0 cN) ∧
    (attestStep K0 rd0 cN).Nonce = cN.Nonce ∧
    lookupClient (attest K0 (attest K0 stC1 rd0) rd0) rd0.AIK.Public
      = some (attestStep K0 rd0 cN) :=
  attest_nonce_reused K0 stC1 rd0 cN (by decide)

/-- Claim C1 counterexample: a concrete run in which a quote is judged
valid, the nonce it was judged against remains stored unchanged, and the
identical request resubmitted without a new nonce request is judged
valid a second time against that same nonce. -/
theorem attest_nonce_reused_cex :
    (lookupClient stC1a [3]).map (fun c => c.Nonce) = some n0 ∧
    ((lookupClient stC1a [3]).bind (fun c => c.AttestResults)).map (fun q => q.succeeded)
      = some true ∧
    ((lookupClient stC1b [3]).bind (fun c => c.AttestResults)).map (fun q => q.succeeded)
      = some true := by
  decide

/-- Claim C2 (amended): during trust-store construction, a manufacturer
subdirectory lacking an IntermediateCA directory is tolerated — and,
contrary to the claim, one lacking a RootCA directory is tolerated as
well (readCertificates discards an os.IsNotExist error from reading
RootCA and proceeds, adding no roots for that manufacturer); only a
RootCA read error other than not-exist fails construction. -/
theorem readCertificates_missing_dirs (fs : CertFS) (dir : String)
    (roots ints : List CTCert)
    (hint : fs.readDir (pathJoin dir "IntermediateCA") = .notExist) :
    (fs.readDir (pathJoin dir "RootCA") = .notExist →
      readCertificates fs dir roots ints = .ok (roots, ints)) ∧
    (∀ files roots2, fs.readDir (pathJoin dir "RootCA") = .ok files →
      parseCertsToPool fs (pathJoin dir "RootCA") files roots = .ok roots2 →
      readCertificates fs dir roots ints = .ok (roots2, ints)) ∧
    (∀ e, fs.readDir (pathJoin dir "RootCA") = .err e →
      readCertificates fs dir roots ints = .error e) := by
  refine ⟨?_, ?_, ?_⟩
  · intro h
    simp [readCertificates, readIntermediates, h, hint]
  · intro files roots2 h hp
    simp [readCertificates, readIntermediates, h, hp, hint]
  · intro e h
    simp [readCertificates, h]

/-- Witness for Claim C2's amended theorem: the concrete hierarchy with
no RootCA and no IntermediateCA for manufacturer acme constructs
successfully with empty pools. -/
theorem readCertificates_missing_dirs_witness :
    readCertificates fsNoRoot "certs/acme" [] [] = .ok ([], []) :=
  (readCertificates_missing_dirs fsNoRoot "certs/acme" [] [] (by decide)).1 (by decide)

/-- Claim C2 counterexample: trust-store construction over a hierarchy
whose single manufacturer directory lacks a RootCA directory succeeds
(empty pools) instead of failing with an error as the claim states. -/
theorem readCertificates_missing_dirs_cex :
    NewEKVerifier fsNoRoot ["certs"] = .ok { roots := [], intermediates := [] } := by
  decide

/-- Claim C10: a non-directory file whose name's extension is not .der,
.crt or .cer is silently skipped by parseCertsToPool: inserting it
anywhere in the listing leaves the outcome unchanged for every
filesystem/parser collaborator — it is never read or parsed, contributes
nothing to the pool, and cannot cause an error. -/
theorem parseCertsToPool_skips_unknown_ext (fs : CertFS) (path : String)
    (f : FileEntry) (hdir : f.isDir = false)
    (hder : fileExt f.name ≠ ".der") (hcrt : fileExt f.name ≠ ".crt")
    (hcer : fileExt f.name ≠ ".cer") :
    ∀ (pre post : List FileEntry) (pool : List CTCert),
      parseCertsToPool fs path (pre ++ f :: post) pool =
        parseCertsToPool fs path (pre ++ post) pool := by
  intro pre
  induction pre with
  | nil =>
    intro post pool
    simp [parseCertsToPool, hdir, hder, hcrt, hcer]
  | cons x rest ih =>
    intro post pool
    by_cases hx : x.isDir = true
    · simp [parseCertsToPool, hx, ih]
    · by_cases hd : fileExt x.name = ".der"
      · simp only [List.cons_append, parseCertsToPool, hx, hd, if_true, if_false]
        cases haddr : addDer fs path x.name pool <;> simp [haddr, hx, ih]
      · by_cases hc : fileExt x.name = ".crt" ∨ fileExt x.name = ".cer"
        · simp only [List.cons_append, parseCertsToPool, hx, hd, hc, if_true, if_false]
          cases haddr : addCrt fs path x.name pool <;> simp [haddr, hx, hd, hc, ih]
        · simp [parseCertsToPool, hx, hd, hc, ih]

/-- Witness for Claim C10: a .pem file in the listing is skipped. -/
theorem parseCertsToPool_skips_unknown_ext_witness :
    parseCertsToPool fsNoRoot "p" [{ name := "a.pem", isDir := false }] [] =
      parseCertsToPool fsNoRoot "p" [] [] :=
  parseCertsToPool_skips_unknown_ext fsNoRoot "p" { name := "a.pem", isDir := false }
    rfl (by decide) (by decide) (by decide) [] [] []

/-- Claim C8: for an endorsement certificate that parses without a fatal
error, VerifyEKCert returns a structured result in which succeeded and
chain_verified coincide, success holds exactly when the chain builder
produced a chain, the result then carries the ordered per-certificate
summary (issuer common name, joined issuer organizations, serial) of the
first resolved chain, and on failure it carries the chain builder's
non-empty error string with an empty chain.  (The hypotheses record the
ct-go x509 contract: Verify returns at least one chain on success, and
its error strings are non-empty.) -/
theorem verifyEKCert_result (parse : Bytes → Option CTCert × Option (String × Bool))
    (verify : CTCert → Except String (List (List CTCert)))
    (certBytes : Bytes) (c0 : CTCert) (perr : Option (String × Bool))
    (hp : parse certBytes = (some c0, perr))
    (hnf : ∀ m, perr ≠ some (m, true))
    (hchains : ∀ chs, verify { c0 with unhandledCriticalExtensions := [] } = .ok chs →
      chs ≠ [])
    (hne : ∀ e, verify { c0 with unhandledCriticalExtensions := [] } = .error e → e ≠ "") :
    ∃ r, VerifyEKCert parse verify certBytes = .ok r ∧
      r.succeeded = r.chainVerified ∧
      (r.succeeded = true ↔
        ∃ ch rest, verify { c0 with unhandledCriticalExtensions := [] } = .ok (ch :: rest) ∧
          r.chain = ch.map certSummary) ∧
      (r.succeeded = false →
        ∃ e, verify { c0 with unhandledCriticalExtensions := [] } = .error e ∧
          r.verificationError = e ∧ r.verificationError ≠ "" ∧ r.chain = []) := by
  have hred : VerifyEKCert parse verify certBytes =
      (match verify { c0 with unhandledCriticalExtensions := [] } with
      | .error ve =>
        .ok { succeeded := false, chainVerified := false, chain := [],
              verificationError := ve }
      | .ok [] => .panicked
      | .ok (ch :: _) =>
        .ok { succeeded := true, chainVerified := true, chain := ch.map certSummary,
              verificationError := "" }) := by
    rcases perr with _ | ⟨m, b⟩
    · simp [VerifyEKCert, hp]
    · cases b
      · simp [VerifyEKCert, hp]
      · exact absurd rfl (hnf m)
  cases hv : verify { c0 with unhandledCriticalExtensions := [] } with
  | error ve =>
    rw [hv] at hred
    refine ⟨_, hred, rfl, ?_, ?_⟩
    · constructor
      · intro h
        simp at h
      · rintro ⟨ch, rest, hok, -⟩
        cases hok
    · intro _
      exact ⟨ve, rfl, rfl, hne ve hv, rfl⟩
  | ok chs =>
    cases chs with
    | nil => exact absurd rfl (hchains [] hv)
    | cons ch rest =>
      rw [hv] at hred
      refine ⟨_, hred, rfl, ?_, ?_⟩
      · constructor
        · intro _
          exact ⟨ch, rest, rfl, rfl⟩
        · intro _
          rfl
      · intro h
        simp at h

/-- Witness for Claim C8 with a concrete certificate and a chain builder
that finds no path to any root. -/
theorem verifyEKCert_result_witness :
    ∃ r, VerifyEKCert parseCertModel verifyFailModel [1] = .ok r ∧
      r.succeeded = r.chainVerified ∧
      (r.succeeded = true ↔
        ∃ ch rest,
          verifyFailModel { cert0 with unhandledCriticalExtensions := [] } = .ok (ch :: rest) ∧
          r.chain = ch.map certSummary) ∧
      (r.succeeded = false →
        ∃ e, verifyFailModel { cert0 with unhandledCriticalExtensions := [] } = .error e ∧
          r.verificationError = e ∧ r.verificationError ≠ "" ∧ r.chain = []) :=
  verifyEKCert_result parseCertModel verifyFailModel [1] cert0 none rfl
    (by intro m h; cases h)
    (by intro chs h; cases h)
    (by intro e h; cases h; decide)

end GoAttestation
